import Mathlib

/-!
# Verification of `organize_photos.py`

A shallow embedding of the photo/video organizer. Pure logic (timestamp
resolution, sidecar-to-media matching, destination-path planning, the two-pass
driver's statistics) is translated into executable Lean definitions; the
filesystem, the EXIF/video metadata libraries and the JSON parser appear as
explicit inputs (lists of existing paths, structured metadata values, parsed
sidecar fields). The local timezone used by `time.mktime` and
`datetime.fromtimestamp` is modelled as UTC. Machine floats holding epoch
seconds are modelled as `Int` (whole seconds).

One finding shapes the whole development: line 15 of the source,

  `'.raw', '.cr2', '.nef', '.arw', '.dng', '.orf', '.rw2', , '.dng', '.pef'`

contains a doubled comma inside the `PHOTO_EXTENSIONS` set literal. That is
a Python `SyntaxError`: the module as written fails at import, so none of
its functions ever exists at runtime and the program has no behaviour at
all. The definitions below model the program obtained by deleting that one
stray token — the evident intent, since the comma contributes nothing and
the line even repeats `.dng` — and this repair is made once, here and at
`PHOTO_EXTENSIONS`, never silently. Theorems about the resolvers, matcher
and driver are therefore theorems about that evidently-intended program;
the import failure itself is the source's primary defect.

A second source defect is modelled rather than repaired:
`os.path.getmtime` is called outside any `try` (source lines 150 and 182),
unlike the guarded `getctime`, so the "unconditional" modification-time
fallback can raise `OSError` for a nonexistent path — and such a path is
reachable, because tier 1 of `find_media_file` returns the lower-cased
candidate even when only the upper-cased file exists. `FileInfo.mtime` is
therefore an `Option` and both resolvers return `Except`.
-/

namespace OrganizePhotos

/-! ## Character and string helpers (models of Python `str` methods) -/

/-- Model of Python `str.lower` on a single character (ASCII range; the
extension and path strings the program manipulates are ASCII). -/
def lowerChar (c : Char) : Char :=
  if 'A' ≤ c ∧ c ≤ 'Z' then Char.ofNat (c.toNat + 32) else c

/-- Model of Python `str.upper` on a single character (ASCII range). -/
def upperChar (c : Char) : Char :=
  if 'a' ≤ c ∧ c ≤ 'z' then Char.ofNat (c.toNat - 32) else c

/-- Model of Python `str.lower`. -/
def lowerStr (s : String) : String := ⟨s.data.map lowerChar⟩

/-- Model of Python `str.upper`. -/
def upperStr (s : String) : String := ⟨s.data.map upperChar⟩

/-- Model of Python `str.startswith`. -/
def pyStartswith (s pre : String) : Bool := pre.data.isPrefixOf s.data

/-- Model of Python `str.endswith`. -/
def pyEndswith (s suf : String) : Bool := suf.data.isSuffixOf s.data

/-- Split a character list on a separator character; mirrors Python
`str.split(sep)` for a one-character separator. -/
def splitChar (sep : Char) : List Char → List (List Char)
  | [] => [[]]
  | c :: rest =>
    match splitChar sep rest with
    | s :: ss => if c = sep then [] :: s :: ss else (c :: s) :: ss
    | [] => [[c]]

/-- Model of `os.path.basename` (POSIX): the part after the last `/`. -/
def basename (p : String) : String := ⟨(p.data.reverse.takeWhile (fun c => c ≠ '/')).reverse⟩

/-- Model of `os.path.dirname` (POSIX): everything before the last `/`,
with trailing slashes stripped unless the head is all slashes. -/
def dirname (p : String) : String :=
  let cs := p.data
  let base := (cs.reverse.takeWhile (fun c => c ≠ '/')).reverse
  let head := cs.take (cs.length - base.length)
  if head = [] ∨ head.all (fun c => c = '/') then ⟨head⟩
  else ⟨(head.reverse.dropWhile (fun c => c = '/')).reverse⟩

/-- Model of `os.path.splitext` (POSIX `genericpath._splitext`): split the
basename at its last dot, provided some character other than a dot precedes
that dot within the basename (so `.bashrc` has no extension). -/
def splitext (p : String) : String × String :=
  let cs := p.data
  let base := (cs.reverse.takeWhile (fun c => c ≠ '/')).reverse
  let dir := cs.take (cs.length - base.length)
  let extRev := base.reverse.takeWhile (fun c => c ≠ '.')
  if extRev.length = base.length then (p, "")
  else
    let stem := base.take (base.length - extRev.length - 1)
    if stem.any (fun c => c ≠ '.') then (⟨dir ++ stem⟩, ⟨'.' :: extRev.reverse⟩)
    else (p, "")

/-- Model of two-argument `os.path.join` (POSIX): an absolute second
component discards the first; otherwise insert `/` unless the first is empty
or already ends in `/`. -/
def joinPath (a b : String) : String :=
  if b.data.head? = some '/' then b
  else if a = "" then b
  else if a.data.getLast? = some '/' then a ++ b
  else a ++ "/" ++ b

/-- Model of `os.path.normpath` (POSIX): collapse repeated separators,
drop `.` components, resolve `..` components. -/
def normpath (p : String) : String :=
  if p = "" then "." else
  let cs := p.data
  let initialSlashes : Nat :=
    if cs.take 2 = ['/', '/'] ∧ cs.take 3 ≠ ['/', '/', '/'] then 2
    else if cs.head? = some '/' then 1 else 0
  let comps := splitChar '/' cs
  let newComps := comps.foldl (fun acc comp =>
    if comp = [] ∨ comp = ['.'] then acc
    else if comp ≠ ['.', '.'] ∨ (initialSlashes = 0 ∧ acc = []) ∨
        (acc.getLast? = some ['.', '.']) then acc ++ [comp]
    else acc.dropLast) []
  let joined := (List.replicate initialSlashes '/') ++ (List.intercalate ['/'] newComps)
  if joined = [] then "." else ⟨joined⟩

/-- Model of Python `int(s)` on a string: optional surrounding spaces,
optional sign, then decimal digits. -/
def digitsToNat? (cs : List Char) : Option Nat :=
  if cs ≠ [] ∧ cs.all Char.isDigit then
    some (cs.foldl (fun a c => a * 10 + (c.toNat - 48)) 0)
  else none

/-- Model of Python `int(s)` (string argument). -/
def pyInt? (s : String) : Option Int :=
  let cs := s.data.dropWhile (fun c => c = ' ')
  let cs := (cs.reverse.dropWhile (fun c => c = ' ')).reverse
  match cs with
  | '-' :: rest => (digitsToNat? rest).map (fun n => -(n : Int))
  | '+' :: rest => (digitsToNat? rest).map (fun n => (n : Int))
  | _ => (digitsToNat? cs).map (fun n => (n : Int))

/-- Model of Python `str.zfill`: left-pad with `'0'` up to the width (the
program only applies it to non-negative numbers, so the sign case of
`zfill` never triggers). -/
def zfill (w : Nat) (s : String) : String :=
  if w ≤ s.length then s else ⟨List.replicate (w - s.length) '0' ++ s.data⟩

/-! ## Calendar (models of `datetime` / `time.mktime`, local time = UTC) -/

/-- Gregorian leap-year test. -/
def isLeap (y : Int) : Bool := (y % 4 = 0 ∧ y % 100 ≠ 0) ∨ y % 400 = 0

/-- Days in a year. -/
def daysInYear (y : Int) : Int := if isLeap y then 366 else 365

/-- Month lengths, January first. -/
def daysInMonthList (leap : Bool) : List Int :=
  [31, if leap then 29 else 28, 31, 30, 31, 30, 31, 31, 30, 31, 30, 31]

/-- Scan years upward from `y`, subtracting whole years from a day count
`d ≥ 0`; fuel bounds the recursion and is always supplied large enough. -/
def yearFromDays : Nat → Int → Int → Int × Int
  | 0, y, d => (y, d)
  | fuel + 1, y, d =>
    if daysInYear y ≤ d then yearFromDays fuel (y + 1) (d - daysInYear y)
    else (y, d)

/-- Scan month lengths, converting a day-of-year `d ≥ 0` into a
(month, day-of-month) pair; months count from `m`. -/
def monthFromDoy : List Int → Int → Int → Int × Int
  | [], m, d => (m, d + 1)
  | len :: rest, m, d =>
    if d < len then (m, d + 1) else monthFromDoy rest (m + 1) (d - len)

/-- Model of `datetime.fromtimestamp(t)` restricted to the calendar date
(year, month, day); local timezone modelled as UTC. -/
def localDate (t : Int) : Int × Int × Int :=
  let days := t / 86400
  let yd := yearFromDays (days.toNat + 1) 1970 days
  let md := monthFromDoy (daysInMonthList (isLeap yd.1)) 1 yd.2
  (yd.1, md.1, md.2)

/-- Days contributed by the full years in `[c, t)`, scanned with fuel. -/
def yearsDays : Nat → Int → Int → Int
  | 0, _, _ => 0
  | fuel + 1, c, t => if c < t then daysInYear c + yearsDays fuel (c + 1) t else 0

/-- Days contributed by the full months before month `m` of a year. -/
def monthDaysBefore (leap : Bool) (m : Int) : Int :=
  ((daysInMonthList leap).take (m - 1).toNat).foldl (· + ·) 0

/-- Days between the epoch and a calendar date (negative before 1970). -/
def epochDaysOfDate (y m d : Int) : Int :=
  let prior :=
    if 1970 ≤ y then yearsDays ((y - 1970).toNat + 1) 1970 y
    else -yearsDays ((1970 - y).toNat + 1) y 1970
  prior + monthDaysBefore (isLeap y) m + (d - 1)

/-- A wall-clock date and time, as produced by the metadata libraries. -/
structure Civil where
  year : Int
  month : Int
  day : Int
  hour : Int
  minute : Int
  second : Int
deriving DecidableEq, Repr

/-- Model of `time.mktime(x.timetuple())`: wall-clock to epoch seconds,
local timezone modelled as UTC. -/
def mktimeCivil (c : Civil) : Int :=
  epochDaysOfDate c.year c.month c.day * 86400 + c.hour * 3600 + c.minute * 60 + c.second

/-! ## Configuration -/

/-- The members the source's `PHOTO_EXTENSIONS` set literal evidently
intends. The literal itself (source line 15) is a Python `SyntaxError` — a
doubled comma — so the source defines no such set and the module cannot be
imported; this definition deletes that one stray comma (the duplicated
`.dng` collapses by set semantics). Every definition below that mentions
this set is a model of the so-repaired program, not of a runnable source. -/
def PHOTO_EXTENSIONS : List String :=
  [".jpg", ".jpeg", ".png", ".gif", ".bmp", ".tiff", ".webp",
   ".raw", ".cr2", ".nef", ".arw", ".dng", ".orf", ".rw2", ".pef"]

/-- `VIDEO_EXTENSIONS`. -/
def VIDEO_EXTENSIONS : List String :=
  [".mp4", ".mov", ".avi", ".wmv", ".flv", ".webm", ".mkv",
   ".m4v", ".3gp", ".mpg", ".mpeg"]

/-- `ALL_MEDIA_EXTENSIONS = PHOTO_EXTENSIONS | VIDEO_EXTENSIONS`. In the
source this union is never computed: the module fails to parse at line 15,
so this too belongs to the evidently-intended program. -/
def ALL_MEDIA_EXTENSIONS : List String := PHOTO_EXTENSIONS ++ VIDEO_EXTENSIONS

/-- `MIN_VALID_TIMESTAMP`: epoch seconds for 2000-01-01. -/
def MIN_VALID_TIMESTAMP : Int := 946684800

/-! ## Metadata extractors -/

/-- Model of `datetime.strptime(s, \"%Y:%m:%d %H:%M:%S\")` followed by
`time.mktime(...timetuple())`: parse the fixed layout, validate the fields
as `datetime` would, convert to epoch seconds (local time = UTC).
`none` models the parse exception the source catches. -/
def parseExifTimestamp (s : String) : Option Int :=
  match splitChar ' ' s.data with
  | [datePart, timePart] =>
    match splitChar ':' datePart, splitChar ':' timePart with
    | [ys, ms, ds], [hs, mis, ss] =>
      match digitsToNat? ys, digitsToNat? ms, digitsToNat? ds,
            digitsToNat? hs, digitsToNat? mis, digitsToNat? ss with
      | some y, some mo, some d, some h, some mi, some sec =>
        if 1 ≤ y ∧ y ≤ 9999 ∧ 1 ≤ mo ∧ mo ≤ 12 ∧ 1 ≤ d ∧
            (d : Int) ≤ (daysInMonthList (isLeap y)).getD (mo - 1) 31 ∧
            h ≤ 23 ∧ mi ≤ 59 ∧ sec ≤ 59 then
          some (mktimeCivil ⟨y, mo, d, h, mi, sec⟩)
        else none
      | _, _, _, _, _, _ => none
    | _, _ => none
  | _ => none

/-- The source's priority-ordered EXIF tag names. -/
def dateTags : List String := ["DateTimeOriginal", "DateTime", "DateTimeDigitized"]

/-- The inner loop of `get_exif_date`: scan the EXIF dictionary (modelled as
tag-name/value pairs, names already resolved through `TAGS`) for one tag
name; a parse failure or an at/below-threshold value continues the scan. -/
def scanTag (tag : String) : List (String × String) → Option Int
  | [] => none
  | (n, v) :: rest =>
    if n = tag then
      match parseExifTimestamp v with
      | some ts => if MIN_VALID_TIMESTAMP < ts then some ts else scanTag tag rest
      | none => scanTag tag rest
    else scanTag tag rest

/-- The outer loop of `get_exif_date`: tag names in priority order. -/
def scanTags : List String → List (String × String) → Option Int
  | [], _ => none
  | t :: ts, entries =>
    match scanTag t entries with
    | some v => some v
    | none => scanTags ts entries

/-- `get_exif_date`. Input `none` models an image that cannot be opened or
has no EXIF dictionary (the source's swallowed exception / falsy `exif`);
both yield "no timestamp found". -/
def get_exif_date (exif : Option (List (String × String))) : Option Int :=
  match exif with
  | none => none
  | some entries => scanTags dateTags entries

/-- A `hachoir` metadata object: the four probed top-level date attributes
(key present ↔ `hasattr`, `none` value ↔ falsy date) and per-stream
`creation_date` values. -/
structure VideoMeta where
  fields : List (String × Option Civil)
  streams : List (Option Civil)
deriving DecidableEq

/-- The source's priority-ordered video date field names. -/
def videoDateFields : List String :=
  ["creation_date", "last_modification", "record_date", "date_time_original"]

/-- The top-level field loop of `get_video_creation_time`. -/
def scanVideoFields (m : VideoMeta) : List String → Option Int
  | [] => none
  | f :: fs =>
    match (m.fields.find? (fun kv => kv.1 = f)).map (fun kv => kv.2) with
    | some (some date) =>
      let ts := mktimeCivil date
      if MIN_VALID_TIMESTAMP < ts then some ts else scanVideoFields m fs
    | _ => scanVideoFields m fs

/-- The per-stream loop of `get_video_creation_time`. -/
def scanStreams : List (Option Civil) → Option Int
  | [] => none
  | s :: rest =>
    match s with
    | some date =>
      let ts := mktimeCivil date
      if MIN_VALID_TIMESTAMP < ts then some ts else scanStreams rest
    | none => scanStreams rest

/-- `get_video_creation_time`. Outer `none` models `createParser` returning
falsy or any swallowed exception; inner `none` models `extractMetadata`
returning falsy (then the `streams` probe on `None` finds nothing). -/
def get_video_creation_time (parsed : Option (Option VideoMeta)) : Option Int :=
  match parsed with
  | none => none
  | some none => none
  | some (some m) =>
    match scanVideoFields m videoDateFields with
    | some ts => some ts
    | none => scanStreams m.streams

/-! ## Sidecar JSON -/

/-- A parsed sidecar JSON object: `title`, and the string values reached by
`metadata['photoTakenTime']['timestamp']` / `metadata['creationTime']['timestamp']`
when those key chains exist (`none` models the `KeyError` the source catches). -/
structure SidecarJson where
  title : Option String
  photoTakenTimestamp : Option String
  creationTimestamp : Option String
deriving DecidableEq

/-- `get_json_date`. -/
def get_json_date (metadata : SidecarJson) : Option Int × Option String :=
  let tryCreation : Option Int × Option String :=
    match metadata.creationTimestamp.bind pyInt? with
    | some t =>
      if MIN_VALID_TIMESTAMP < t then (some t, some "JSON creationTime") else (none, none)
    | none => (none, none)
  match metadata.photoTakenTimestamp.bind pyInt? with
  | some t =>
    if MIN_VALID_TIMESTAMP < t then (some t, some "JSON photoTakenTime") else tryCreation
  | none => tryCreation

/-! ## Directory filter -/

/-- `should_process_directory`. -/
def should_process_directory (path target_dir : String) : Bool :=
  let norm_path := lowerStr (normpath path)
  let norm_target := lowerStr (normpath target_dir)
  ! pyStartswith norm_path norm_target

/-! ## Timestamp resolution -/

/-- The `OSError` that escapes the resolvers: `os.path.getmtime` is called
outside any `try` (source lines 150 and 182), so its failure — e.g. for a
path that does not exist — propagates to the caller. -/
inductive OsError where
  | getmtime (path : String)
deriving DecidableEq

/-- One media file as the resolver sees it: its path, its embedded metadata
(EXIF dictionary for photos, `hachoir` parse for videos), and its
filesystem timestamps. `ctime = none` models `os.path.getctime` raising —
that call is wrapped in `try`/`except: pass`, so any failure is swallowed.
`mtime = none` models `os.path.getmtime` raising — that call is unguarded
in the source, so the failure is NOT swallowed; the resolvers surface it. -/
structure FileInfo where
  path : String
  exif : Option (List (String × String))
  video : Option (Option VideoMeta)
  ctime : Option Int
  mtime : Option Int
deriving DecidableEq

/-- The media-kind dispatch shared by `get_file_date` and
`get_valid_timestamp`: the extractor matching the file's extension, with its
source label. -/
def mediaMetadataDate (media : FileInfo) : Option (Int × String) :=
  let file_ext := lowerStr (splitext media.path).2
  if PHOTO_EXTENSIONS.contains file_ext then
    (get_exif_date media.exif).map (fun d => (d, "EXIF"))
  else if VIDEO_EXTENSIONS.contains file_ext then
    (get_video_creation_time media.video).map (fun d => (d, "Video metadata"))
  else none

/-- The filesystem-timestamp tail of both resolvers: creation time when
available and above the threshold, else modification time with no
threshold test — but the unguarded `getmtime` call itself can raise, and
that failure escapes the resolver. -/
def fsDateFallback (media : FileInfo) : Except OsError (Int × String) :=
  match media.ctime with
  | some ct =>
    if MIN_VALID_TIMESTAMP < ct then .ok (ct, "File creation time")
    else
      match media.mtime with
      | some mt => .ok (mt, "File modification time")
      | none => .error (.getmtime media.path)
  | none =>
    match media.mtime with
    | some mt => .ok (mt, "File modification time")
    | none => .error (.getmtime media.path)

/-- `get_file_date`: resolution for files without a sidecar. The `.error`
result models the `OSError` the unguarded `getmtime` call raises out of
this function. -/
def get_file_date (media : FileInfo) : Except OsError (Int × String) :=
  let file_ext := lowerStr (splitext media.path).2
  if PHOTO_EXTENSIONS.contains file_ext then
    match get_exif_date media.exif with
    | some d => .ok (d, "EXIF")
    | none => fsDateFallback media
  else if VIDEO_EXTENSIONS.contains file_ext then
    match get_video_creation_time media.video with
    | some d => .ok (d, "Video metadata")
    | none => fsDateFallback media
  else fsDateFallback media

/-- `get_valid_timestamp`: resolution for files with a sidecar. (When the
JSON yields a timestamp the source returns the paired label; the pairing is
total, so `getD` never supplies its default.) The `.error` result models
the `OSError` the unguarded `getmtime` call raises out of this function. -/
def get_valid_timestamp (metadata : SidecarJson) (media : FileInfo) :
    Except OsError (Int × String) :=
  let afterMeta : Except OsError (Int × String) :=
    let jd := get_json_date metadata
    match jd.1 with
    | some t => .ok (t, jd.2.getD "")
    | none => fsDateFallback media
  let file_ext := lowerStr (splitext media.path).2
  if PHOTO_EXTENSIONS.contains file_ext then
    match get_exif_date media.exif with
    | some d => .ok (d, "EXIF")
    | none => afterMeta
  else if VIDEO_EXTENSIONS.contains file_ext then
    match get_video_creation_time media.video with
    | some d => .ok (d, "Video metadata")
    | none => afterMeta
  else afterMeta

/-! ## Media matcher -/

/-- The error raised when no matcher tier finds a media file
(`FileNotFoundError(f"No media file found for {json_path} (title: {title})")`). -/
inductive FindError where
  | mediaNotFound (json_path : String) (title : String)
deriving DecidableEq

/-- Tier 1 of `find_media_file`: the sidecar's own stem with each supported
extension, existence checked in lower and upper case — but the lower-cased
candidate path is what is returned. -/
def tier1Scan (fsList : List String) (base_path : String) : List String → Option String
  | [] => none
  | ext :: rest =>
    if fsList.contains (base_path ++ lowerStr ext) ∨ fsList.contains (base_path ++ upperStr ext) then
      some (base_path ++ lowerStr ext)
    else tier1Scan fsList base_path rest

/-- Tier 2 of `find_media_file`: the declared title's stem with each
supported extension, in the sidecar's directory. -/
def tier2Scan (fsList : List String) (dir_path title_we : String) : List String → Option String
  | [] => none
  | ext :: rest =>
    let potential := joinPath dir_path (title_we ++ ext)
    if fsList.contains potential then some potential else tier2Scan fsList dir_path title_we rest

/-- `fnmatch` of a basename against the glob pattern `*{t}*{e}`: some
occurrence of `t` followed (possibly after more characters) by the suffix `e`. -/
def globStarStar (t e name : List Char) : Bool :=
  (List.range (name.length + 1)).any (fun i =>
    t.isPrefixOf (name.drop i) ∧ e.isSuffixOf (name.drop (i + t.length)))

/-- Tier 3 of `find_media_file`: `glob.glob` on `*{title_we}*{ext}` in the
sidecar's directory; `glob` never matches dot-files with a `*`-led pattern,
and the first match in directory order (modelled as `fsList` order) wins. -/
def tier3Scan (fsList : List String) (dir_path title_we : String) : List String → Option String
  | [] => none
  | ext :: rest =>
    let found := fsList.filter (fun f =>
      dirname f = dir_path ∧ (basename f).data.head? ≠ some '.' ∧
      globStarStar title_we.data ext.data (basename f).data)
    match found with
    | m :: _ => some m
    | [] => tier3Scan fsList dir_path title_we rest

/-- `find_media_file`, over the set of existing paths `fsList`. -/
def find_media_file (fsList : List String) (json_path title : String) : Except FindError String :=
  let base_path := (splitext json_path).1
  match tier1Scan fsList base_path ALL_MEDIA_EXTENSIONS with
  | some p => .ok p
  | none =>
    let dir_path := dirname json_path
    let title_without_ext := (splitext title).1
    match tier2Scan fsList dir_path title_without_ext ALL_MEDIA_EXTENSIONS with
    | some p => .ok p
    | none =>
      match tier3Scan fsList dir_path title_without_ext ALL_MEDIA_EXTENSIONS with
      | some p => .ok p
      | none => .error (.mediaNotFound json_path title)

/-! ## Path planner -/

/-- `get_target_path`. -/
def get_target_path (timestamp : Int) (media_path : String) : String × String :=
  let date := localDate timestamp
  let year := toString date.1
  let month := zfill 2 (toString date.2.1)
  let day := zfill 2 (toString date.2.2)
  let media_extension := lowerStr (splitext media_path).2
  let media_filename := (splitext (basename media_path)).1
  (joinPath year (joinPath (year ++ "-" ++ month ++ "-" ++ day)
    (media_filename ++ media_extension)), media_extension)

/-! ## Driver (`organize_media` and its helpers)

The walk, the JSON reads, the per-file metadata and the move outcomes are
collaborator inputs, collected in `Env`; each pass is a fold over the walk's
`(root, files)` entries. Moves are recorded as `(source, destination)` pairs
(`makedirs` is bookkeeping and is not modelled). -/

/-- The driver's collaborators: which paths exist, what each sidecar's JSON
parses to (`none` models `json.load` failing), each file's metadata and
filesystem timestamps, and whether moving a given source path succeeds. -/
structure Env where
  fsList : List String
  content : String → Option SidecarJson
  info : String → FileInfo
  moveOk : String → Bool

/-- Errors surfaced to the driver's per-file `except` handler. `osError`
is the `OSError` propagating from the resolvers' unguarded `getmtime`. -/
inductive ProcError where
  | jsonLoadError (path : String)
  | keyError (path field : String)
  | mediaNotFound (json_path : String) (title : String)
  | osError (path : String)
deriving DecidableEq

/-- Decidable equality for `Except`, so concrete runs evaluate by `decide`. -/
instance {e a : Type} [DecidableEq e] [DecidableEq a] : DecidableEq (Except e a) := fun x y =>
  match x, y with
  | .ok u, .ok v =>
    if h : u = v then isTrue (by rw [h]) else isFalse (by intro hh; cases hh; exact h rfl)
  | .error u, .error v =>
    if h : u = v then isTrue (by rw [h]) else isFalse (by intro hh; cases hh; exact h rfl)
  | .ok _, .error _ => isFalse (by intro hh; cases hh)
  | .error _, .ok _ => isFalse (by intro hh; cases hh)

/-- `process_json_file`: load the sidecar, find its media file, resolve the
timestamp, plan the destination. Returns `(target_path, media_ext, media_path)`. -/
def process_json_file (env : Env) (json_path : String) :
    Except ProcError (String × String × String) :=
  match env.content json_path with
  | none => .error (.jsonLoadError json_path)
  | some metadata =>
    match metadata.title with
    | none => .error (.keyError json_path "title")
    | some title =>
      match find_media_file env.fsList json_path title with
      | .error (.mediaNotFound p t) => .error (.mediaNotFound p t)
      | .ok media_path =>
        let fi := { env.info media_path with path := media_path }
        match get_valid_timestamp metadata fi with
        | .error (.getmtime p) => .error (.osError p)
        | .ok ts =>
          let tp := get_target_path ts.1 media_path
          .ok (tp.1, tp.2, media_path)

/-- `process_media_without_json`. The `.error` result is the `OSError`
escaping `get_file_date`, caught only by the driver's per-file handler. -/
def process_media_without_json (media : FileInfo) : Except OsError (String × String) :=
  match get_file_date media with
  | .error e => .error e
  | .ok ts => .ok (get_target_path ts.1 media.path)

/-- The driver's per-run statistics. -/
structure Stats where
  processed : Nat
  processed_with_json : Nat
  processed_without_json : Nat
  errors : Nat
  photos : Nat
  videos : Nat
  skipped_directories : Nat
deriving DecidableEq

/-- The zero-initialised statistics dictionary. -/
def initStats : Stats := ⟨0, 0, 0, 0, 0, 0, 0⟩

/-- The driver's mutable state: statistics, the `processed_media_files` set
(kept in insertion order), and the moves performed so far. -/
structure Acc where
  stats : Stats
  claimed : List String
  moves : List (String × String)
deriving DecidableEq

/-- `stats['photos'] += 1` or `stats['videos'] += 1` by extension class. -/
def countMedia (st : Stats) (media_ext : String) : Stats :=
  if PHOTO_EXTENSIONS.contains media_ext then { st with photos := st.photos + 1 }
  else { st with videos := st.videos + 1 }

/-- Pass 1, one `.json` file: on success the media path is claimed, both
files move and the counters advance; any failure (processing or either
move) increments only `errors`. A move failure still leaves the media path
claimed, as in the source, where `processed_media_files.add` precedes the
moves inside the `try` block. -/
def pass1Step (env : Env) (target_dir root file : String) (acc : Acc) : Acc :=
  let json_path := joinPath root file
  match process_json_file env json_path with
  | .error _ => { acc with stats := { acc.stats with errors := acc.stats.errors + 1 } }
  | .ok (target_path, media_ext, media_path) =>
    let claimed := acc.claimed ++ [lowerStr media_path]
    if env.moveOk media_path then
      if env.moveOk json_path then
        let st := { acc.stats with
          processed := acc.stats.processed + 1,
          processed_with_json := acc.stats.processed_with_json + 1 }
        { stats := countMedia st media_ext,
          claimed := claimed,
          moves := acc.moves ++
            [(media_path, joinPath target_dir target_path),
             (json_path, joinPath (joinPath target_dir (dirname target_path)) (basename json_path))] }
      else
        { stats := { acc.stats with errors := acc.stats.errors + 1 },
          claimed := claimed,
          moves := acc.moves ++ [(media_path, joinPath target_dir target_path)] }
    else
      { acc with
        stats := { acc.stats with errors := acc.stats.errors + 1 },
        claimed := claimed }

/-- Pass 1, one directory's file list. -/
def pass1Files (env : Env) (target_dir root : String) (acc : Acc) (files : List String) : Acc :=
  files.foldl (fun a file =>
    if pyEndswith file ".json" then pass1Step env target_dir root file a else a) acc

/-- Pass 1, one walk entry: skipped (with its counter) when the directory
is inside the target tree. -/
def pass1Dir (env : Env) (target_dir : String) (acc : Acc) (entry : String × List String) : Acc :=
  if should_process_directory entry.1 target_dir then
    pass1Files env target_dir entry.1 acc entry.2
  else
    { acc with stats :=
        { acc.stats with skipped_directories := acc.stats.skipped_directories + 1 } }

/-- Pass 2, one file: skip files claimed in pass 1 (compared lower-cased)
and non-media extensions; a resolution failure (the escaping `getmtime`
`OSError`) or a move failure increments only `errors`. -/
def pass2Step (env : Env) (target_dir root file : String) (acc : Acc) : Acc :=
  let file_path := joinPath root file
  if acc.claimed.contains (lowerStr file_path) then acc
  else
    let file_ext := lowerStr (splitext file).2
    if ALL_MEDIA_EXTENSIONS.contains file_ext then
      let fi := { env.info file_path with path := file_path }
      match process_media_without_json fi with
      | .error _ =>
        { acc with stats := { acc.stats with errors := acc.stats.errors + 1 } }
      | .ok tp =>
        if env.moveOk file_path then
          let st := { acc.stats with
            processed := acc.stats.processed + 1,
            processed_without_json := acc.stats.processed_without_json + 1 }
          { acc with
              stats := countMedia st tp.2,
              moves := acc.moves ++ [(file_path, joinPath target_dir tp.1)] }
        else
          { acc with stats := { acc.stats with errors := acc.stats.errors + 1 } }
    else acc

/-- Pass 2, one walk entry: directories inside the target tree are skipped
silently (the source increments no counter in pass 2). -/
def pass2Dir (env : Env) (target_dir : String) (acc : Acc) (entry : String × List String) : Acc :=
  if should_process_directory entry.1 target_dir then
    entry.2.foldl (fun a file => pass2Step env target_dir entry.1 file a) acc
  else acc

/-- `organize_media`: pass 1 over the first walk, pass 2 over the second
(the walks are snapshots of the tree before each pass). -/
def organize_media (env : Env) (target_dir : String)
    (walk1 walk2 : List (String × List String)) : Acc :=
  let acc1 := walk1.foldl (pass1Dir env target_dir) ⟨initStats, [], []⟩
  walk2.foldl (pass2Dir env target_dir) acc1

/-! ## Spec-side reference definitions and concrete fixtures -/

/-- The spec's description of `resolve_without_sidecar` (§4.2): embedded
metadata for the file's kind, then filesystem creation time if available
and above the threshold, then filesystem modification time — no sidecar
JSON anywhere in the chain (the definition takes none). The
modification-time step surfaces the unguarded `getmtime` failure exactly
as the source does. -/
def resolve_without_sidecar_spec (media : FileInfo) : Except OsError (Int × String) :=
  match mediaMetadataDate media with
  | some ds => .ok ds
  | none =>
    match media.ctime with
    | some ct =>
      if MIN_VALID_TIMESTAMP < ct then .ok (ct, "File creation time")
      else
        match media.mtime with
        | some mt => .ok (mt, "File modification time")
        | none => .error (.getmtime media.path)
    | none =>
      match media.mtime with
      | some mt => .ok (mt, "File modification time")
      | none => .error (.getmtime media.path)

/-- The statistics invariant of the driver loops. -/
def statsInv (st : Stats) : Prop :=
  st.processed = st.processed_with_json + st.processed_without_json ∧
  st.processed = st.photos + st.videos

/-- Fixture: a sidecar whose only usable field is `photoTakenTime`. -/
def sidecarC6 : SidecarJson := ⟨some "IMG_001.jpg", some "1609459200", none⟩

/-- Fixture: a photo file yielding no embedded metadata timestamp. -/
def mediaC6 : FileInfo := ⟨"IMG_001.jpg", none, none, none, some 0⟩

/-- Fixture for the matcher: the exact-stem match exists only with an
upper-case extension, alongside a title-derived candidate. -/
def fsC3 : List String := ["album/photo.JPG", "album/Vacation.png"]

/-- Fixture: a filesystem with a lower-case exact-stem match. -/
def fsC3w : List String := ["trip/pic.jpg"]

/-- Fixture: a photo whose EXIF dictionary has a valid `DateTimeOriginal`. -/
def mediaC1 : FileInfo :=
  ⟨"a/IMG.jpg", some [("DateTimeOriginal", "2023:12:07 15:30:00")], none, none, some 0⟩

/-- Fixture: a sidecar with no usable timestamp fields. -/
def sidecarC1 : SidecarJson := ⟨some "IMG.jpg", none, none⟩

/-- Fixture: a non-media file whose creation time sits at the epoch-2000
sentinel boundary and whose modification time is far below the threshold. -/
def mediaC2 : FileInfo := ⟨"doc.txt", none, none, some 100, some 50⟩

/-- Fixture: a sidecar whose `photoTakenTime` is below the threshold. -/
def sidecarC2 : SidecarJson := ⟨none, some "100", none⟩

/-- Fixture driver environment: every sidecar parses to a title whose media
file does not exist, so every pass-1 file fails with `mediaNotFound`. -/
def envC7 : Env :=
  { fsList := []
    content := fun _ => some ⟨some "nope.jpg", none, none⟩
    info := fun p => ⟨p, none, none, none, some 0⟩
    moveOk := fun _ => true }

/-! ## Resolution-chain lemmas -/

/-- `get_valid_timestamp` unfolded into its priority chain. -/
theorem gvt_eq_chain (md : SidecarJson) (media : FileInfo) :
    get_valid_timestamp md media =
      match mediaMetadataDate media with
      | some ds => .ok ds
      | none =>
        match (get_json_date md).1 with
        | some t => .ok (t, (get_json_date md).2.getD "")
        | none => fsDateFallback media := by
  unfold get_valid_timestamp mediaMetadataDate
  by_cases h1 : (PHOTO_EXTENSIONS.contains (lowerStr (splitext media.path).2) : Bool) = true
  · simp only [h1, if_true]
    cases hex : get_exif_date media.exif <;>
      simp [hex]
  · simp only [h1]
    by_cases h2 : (VIDEO_EXTENSIONS.contains (lowerStr (splitext media.path).2) : Bool) = true
    · simp only [h2, if_true, if_false, Bool.false_eq_true]
      cases hv : get_video_creation_time media.video <;> simp [hv]
    · simp only [h2, Bool.false_eq_true, if_false]

/-- `get_file_date` unfolded into its priority chain. -/
theorem gfd_eq_chain (media : FileInfo) :
    get_file_date media =
      match mediaMetadataDate media with
      | some ds => .ok ds
      | none => fsDateFallback media := by
  unfold get_file_date mediaMetadataDate
  by_cases h1 : (PHOTO_EXTENSIONS.contains (lowerStr (splitext media.path).2) : Bool) = true
  · simp only [h1, if_true]
    cases hex : get_exif_date media.exif <;> simp [hex]
  · simp only [h1]
    by_cases h2 : (VIDEO_EXTENSIONS.contains (lowerStr (splitext media.path).2) : Bool) = true
    · simp only [h2, if_true, if_false, Bool.false_eq_true]
      cases hv : get_video_creation_time media.video <;> simp [hv]
    · simp only [h2, Bool.false_eq_true, if_false]

/-- Every timestamp `scanTag` returns beats the validity threshold. -/
theorem scanTag_some_gt {tag : String} :
    ∀ {entries : List (String × String)} {t : Int},
      scanTag tag entries = some t → MIN_VALID_TIMESTAMP < t := by
  intro entries
  induction entries with
  | nil => intro t h; simp [scanTag] at h
  | cons kv rest ih =>
    intro t h
    unfold scanTag at h
    split at h
    · split at h
      · split at h
        · cases h; assumption
        · exact ih h
      · exact ih h
    · exact ih h

/-- Every timestamp `scanTags` returns beats the validity threshold. -/
theorem scanTags_some_gt :
    ∀ {tags : List String} {entries : List (String × String)} {t : Int},
      scanTags tags entries = some t → MIN_VALID_TIMESTAMP < t := by
  intro tags
  induction tags with
  | nil => intro entries t h; simp [scanTags] at h
  | cons tg rest ih =>
    intro entries t h
    unfold scanTags at h
    split at h
    · cases h
      exact scanTag_some_gt (by assumption)
    · exact ih h

/-- Every timestamp `get_exif_date` returns beats the validity threshold. -/
theorem get_exif_date_some_gt {exif : Option (List (String × String))} {t : Int}
    (h : get_exif_date exif = some t) : MIN_VALID_TIMESTAMP < t := by
  unfold get_exif_date at h
  split at h
  · cases h
  · exact scanTags_some_gt h

/-- Every timestamp `scanVideoFields` returns beats the validity threshold. -/
theorem scanVideoFields_some_gt {m : VideoMeta} :
    ∀ {fs : List String} {t : Int},
      scanVideoFields m fs = some t → MIN_VALID_TIMESTAMP < t := by
  intro fs
  induction fs with
  | nil => intro t h; simp [scanVideoFields] at h
  | cons f rest ih =>
    intro t h
    unfold scanVideoFields at h
    split at h
    · simp only [] at h
      split at h
      · cases h; assumption
      · exact ih h
    · exact ih h

/-- Every timestamp `scanStreams` returns beats the validity threshold. -/
theorem scanStreams_some_gt :
    ∀ {ss : List (Option Civil)} {t : Int},
      scanStreams ss = some t → MIN_VALID_TIMESTAMP < t := by
  intro ss
  induction ss with
  | nil => intro t h; simp [scanStreams] at h
  | cons s rest ih =>
    intro t h
    unfold scanStreams at h
    split at h
    · simp only [] at h
      split at h
      · cases h; assumption
      · exact ih h
    · exact ih h

/-- Every timestamp `get_video_creation_time` returns beats the threshold. -/
theorem get_video_creation_time_some_gt {v : Option (Option VideoMeta)} {t : Int}
    (h : get_video_creation_time v = some t) : MIN_VALID_TIMESTAMP < t := by
  unfold get_video_creation_time at h
  split at h
  · cases h
  · cases h
  · split at h
    · cases h
      exact scanVideoFields_some_gt (by assumption)
    · exact scanStreams_some_gt h

/-- Every timestamp `get_json_date` returns beats the validity threshold. -/
theorem get_json_date_some_gt {md : SidecarJson} {t : Int}
    (h : (get_json_date md).1 = some t) : MIN_VALID_TIMESTAMP < t := by
  unfold get_json_date at h
  simp only [] at h
  split at h
  · split at h
    · simp only [Option.some.injEq] at h
      omega
    · split at h
      · split at h
        · simp only [Option.some.injEq] at h
          omega
        · simp at h
      · simp at h
  · split at h
    · split at h
      · simp only [Option.some.injEq] at h
        omega
      · simp at h
    · simp at h

/-- The mediaMetadataDate dispatch inherits the threshold bound. -/
theorem mediaMetadataDate_some_gt {media : FileInfo} {t : Int} {s : String}
    (h : mediaMetadataDate media = some (t, s)) : MIN_VALID_TIMESTAMP < t := by
  unfold mediaMetadataDate at h
  simp only [] at h
  split at h
  · cases hex : get_exif_date media.exif <;> rw [hex] at h
    · simp at h
    · simp only [Option.map_some', Option.some.injEq, Prod.mk.injEq] at h
      obtain ⟨h1, _⟩ := h
      subst h1
      exact get_exif_date_some_gt hex
  · split at h
    · cases hv : get_video_creation_time media.video <;> rw [hv] at h
      · simp at h
      · simp only [Option.map_some', Option.some.injEq, Prod.mk.injEq] at h
        obtain ⟨h1, _⟩ := h
        subst h1
        exact get_video_creation_time_some_gt hv
    · simp at h

/-- The json labels are the two JSON source labels (or absent). -/
theorem get_json_date_labels (md : SidecarJson) :
    (get_json_date md).2 = none ∨ (get_json_date md).2 = some "JSON photoTakenTime" ∨
      (get_json_date md).2 = some "JSON creationTime" := by
  unfold get_json_date
  simp only []
  split
  · split
    · simp
    · split
      · split <;> simp
      · simp
  · split
    · split <;> simp
    · simp

/-- The dispatch labels are the two embedded-metadata source labels. -/
theorem mediaMetadataDate_label {media : FileInfo} {d : Int} {s : String}
    (h : mediaMetadataDate media = some (d, s)) : s = "EXIF" ∨ s = "Video metadata" := by
  unfold mediaMetadataDate at h
  simp only [] at h
  split at h
  · cases hex : get_exif_date media.exif <;> rw [hex] at h
    · simp at h
    · simp only [Option.map_some', Option.some.injEq, Prod.mk.injEq] at h
      exact Or.inl h.2.symm
  · split at h
    · cases hv : get_video_creation_time media.video <;> rw [hv] at h
      · simp at h
      · simp only [Option.map_some', Option.some.injEq, Prod.mk.injEq] at h
        exact Or.inr h.2.symm
    · simp at h

/-- `get_json_date` returns one of exactly three shapes. -/
theorem get_json_date_shape (md : SidecarJson) :
    get_json_date md = (none, none) ∨
    (∃ t, get_json_date md = (some t, some "JSON photoTakenTime")) ∨
    (∃ t, get_json_date md = (some t, some "JSON creationTime")) := by
  unfold get_json_date
  simp only []
  rcases hp : md.photoTakenTimestamp.bind pyInt? with _ | a <;> simp only [hp]
  · rcases hc : md.creationTimestamp.bind pyInt? with _ | b <;> simp only [hc]
    · left; trivial
    · by_cases hb : MIN_VALID_TIMESTAMP < b
      · rw [if_pos hb]; right; right; exact ⟨b, rfl⟩
      · rw [if_neg hb]; left; rfl
  · by_cases ha : MIN_VALID_TIMESTAMP < a
    · rw [if_pos ha]; right; left; exact ⟨a, rfl⟩
    · rw [if_neg ha]
      rcases hc : md.creationTimestamp.bind pyInt? with _ | b <;> simp only [hc]
      · left; trivial
      · by_cases hb : MIN_VALID_TIMESTAMP < b
        · rw [if_pos hb]; right; right; exact ⟨b, rfl⟩
        · rw [if_neg hb]; left; rfl

/-- When `get_json_date` yields a timestamp, it pairs it with one of the
two JSON source labels. -/
theorem get_json_date_pairing {md : SidecarJson} {t : Int}
    (h : (get_json_date md).1 = some t) :
    (get_json_date md).2 = some "JSON photoTakenTime" ∨
      (get_json_date md).2 = some "JSON creationTime" := by
  rcases get_json_date_shape md with hs | ⟨u, hs⟩ | ⟨u, hs⟩ <;> rw [hs] at h ⊢ <;> simp_all

/-- A successful filesystem fallback carries one of its two labels. -/
theorem fsDateFallback_label {media : FileInfo} {t : Int} {s : String}
    (h : fsDateFallback media = .ok (t, s)) :
    s = "File creation time" ∨ s = "File modification time" := by
  unfold fsDateFallback at h
  split at h
  · split at h
    · simp only [Except.ok.injEq, Prod.mk.injEq] at h
      exact Or.inl h.2.symm
    · split at h
      · simp only [Except.ok.injEq, Prod.mk.injEq] at h
        exact Or.inr h.2.symm
      · simp at h
  · split at h
    · simp only [Except.ok.injEq, Prod.mk.injEq] at h
      exact Or.inr h.2.symm
    · simp at h

/-- Whenever `getmtime` would succeed, the filesystem fallback succeeds. -/
theorem fsDateFallback_isOk {media : FileInfo} {mt : Int}
    (hm : media.mtime = some mt) :
    ∃ t s, fsDateFallback media = .ok (t, s) := by
  unfold fsDateFallback
  rcases hc : media.ctime with _ | ct
  · exact ⟨mt, "File modification time", by simp [hm]⟩
  · by_cases hgt : MIN_VALID_TIMESTAMP < ct
    · exact ⟨ct, "File creation time", by simp [hgt]⟩
    · exact ⟨mt, "File modification time", by simp [hgt, hm]⟩

/-- When every available creation time is at or below the threshold, the
filesystem fallback lands on the modification time (with no threshold test
on the modification time itself). -/
theorem fsDateFallback_mtime {media : FileInfo} {mt : Int}
    (h : ∀ ct, media.ctime = some ct → ct ≤ MIN_VALID_TIMESTAMP)
    (hm : media.mtime = some mt) :
    fsDateFallback media = .ok (mt, "File modification time") := by
  unfold fsDateFallback
  cases hc : media.ctime with
  | none => rw [hm]
  | some ct =>
    have hle := h ct hc
    simp [not_lt.mpr hle, hm]

/-! ## Claims -/

/-- C1: with a sidecar, `get_valid_timestamp` tries the embedded-metadata
extractor matching the file's kind, then the sidecar JSON fields (in
`get_json_date`'s photoTakenTime-then-creationTime order), then filesystem
creation time above the threshold, then filesystem modification time — and
returns the first accepted source. -/
theorem claim_C1 (metadata : SidecarJson) (media : FileInfo) :
    (∀ d s, mediaMetadataDate media = some (d, s) →
      get_valid_timestamp metadata media = .ok (d, s)) ∧
    (mediaMetadataDate media = none →
      ∀ t s, get_json_date metadata = (some t, some s) →
        get_valid_timestamp metadata media = .ok (t, s)) ∧
    (mediaMetadataDate media = none → (get_json_date metadata).1 = none →
      ∀ ct, media.ctime = some ct → MIN_VALID_TIMESTAMP < ct →
        get_valid_timestamp metadata media = .ok (ct, "File creation time")) ∧
    (mediaMetadataDate media = none → (get_json_date metadata).1 = none →
      (∀ ct, media.ctime = some ct → ct ≤ MIN_VALID_TIMESTAMP) →
      ∀ mt, media.mtime = some mt →
        get_valid_timestamp metadata media = .ok (mt, "File modification time")) := by
  refine ⟨?_, ?_, ?_, ?_⟩
  · intro d s h
    rw [gvt_eq_chain, h]
  · intro hm t s h
    rw [gvt_eq_chain, hm]
    simp [h]
  · intro hm hj ct hct hgt
    rw [gvt_eq_chain, hm]
    simp only [hj]
    unfold fsDateFallback
    rw [hct]
    simp [hgt]
  · intro hm hj hct mt hmt
    rw [gvt_eq_chain, hm]
    simp only [hj]
    exact fsDateFallback_mtime hct hmt

/-- C1 witness: a photo whose EXIF `DateTimeOriginal` parses wins outright. -/
theorem claim_C1_wit : get_valid_timestamp sidecarC1 mediaC1 = .ok (1701963000, "EXIF") :=
  (claim_C1 sidecarC1 mediaC1).1 1701963000 "EXIF" (by decide)

/-- C2: every timestamp an extractor, a JSON field or the creation-time
probe delivers is strictly above `MIN_VALID_TIMESTAMP` (at-or-below values
are rejected and resolution falls through), while the final
modification-time fallback is accepted with no threshold test at all. -/
theorem claim_C2 :
    (∀ (exif : Option (List (String × String))) (t : Int),
      get_exif_date exif = some t → MIN_VALID_TIMESTAMP < t) ∧
    (∀ (video : Option (Option VideoMeta)) (t : Int),
      get_video_creation_time video = some t → MIN_VALID_TIMESTAMP < t) ∧
    (∀ (metadata : SidecarJson) (t : Int),
      (get_json_date metadata).1 = some t → MIN_VALID_TIMESTAMP < t) ∧
    (∀ (metadata : SidecarJson) (media : FileInfo),
      mediaMetadataDate media = none → (get_json_date metadata).1 = none →
      (∀ ct, media.ctime = some ct → ct ≤ MIN_VALID_TIMESTAMP) →
      ∀ mt, media.mtime = some mt →
        get_valid_timestamp metadata media = .ok (mt, "File modification time") ∧
        get_file_date media = .ok (mt, "File modification time")) := by
  refine ⟨fun _ _ => get_exif_date_some_gt, fun _ _ => get_video_creation_time_some_gt,
    fun _ _ => get_json_date_some_gt, ?_⟩
  intro metadata media hm hj hct mt hmt
  constructor
  · rw [gvt_eq_chain, hm]
    simp only [hj]
    exact fsDateFallback_mtime hct hmt
  · rw [gfd_eq_chain, hm]
    exact fsDateFallback_mtime hct hmt

/-- C2 witness: JSON value 100 and creation time 100 are both rejected, and
a modification time of 50 — itself far below the threshold — is accepted. -/
theorem claim_C2_wit :
    get_valid_timestamp sidecarC2 mediaC2 = .ok (50, "File modification time") :=
  ((claim_C2.2.2.2 sidecarC2 mediaC2 (by decide) (by decide)
    (fun ct h => by
      simp only [mediaC2, Option.some.injEq] at h
      subst h
      decide) 50 (by decide)).1)

/-- C5: without a sidecar, `get_file_date` equals the spec's sidecar-free
chain (embedded metadata → creation time → modification time); the chain's
definition takes no sidecar, so no JSON field can influence the result. -/
theorem claim_C5 (media : FileInfo) :
    get_file_date media = resolve_without_sidecar_spec media := by
  rw [gfd_eq_chain]
  unfold resolve_without_sidecar_spec fsDateFallback
  rfl

/-- C8 counterexample: the resolver can fail outright. Tier 1 of the
matcher returns `trip/clip.mp4` although only `trip/clip.MP4` exists; on
that nonexistent path every guarded probe yields nothing and the final
`os.path.getmtime` call — unguarded in the source (lines 150 and 182,
unlike the `try`-wrapped `getctime`) — raises, so `get_valid_timestamp`
escapes with an `OSError` instead of returning a pair. -/
theorem claim_C8_cex :
    find_media_file ["trip/clip.MP4"] "trip/clip.json" "clip.mp4" = .ok "trip/clip.mp4" ∧
    (["trip/clip.MP4"] : List String).contains "trip/clip.mp4" = false ∧
    get_valid_timestamp ⟨some "clip.mp4", none, none⟩
        ⟨"trip/clip.mp4", none, none, none, none⟩ =
      .error (.getmtime "trip/clip.mp4") := by
  refine ⟨by decide, by decide, by decide⟩

/-- C8 (amended): the extractors are total `Option`-returning functions —
unreadable inputs yield `none`, malformed tag values are skipped rather
than fatal — and every successful resolution carries one of the six source
labels; but the resolver is total only up to the final `getmtime` call:
it returns a pair whenever that call succeeds, while the call's failure
(reachable, since it is unguarded) escapes as an error. -/
theorem claim_C8 :
    (get_exif_date none = none) ∧
    (∀ (tag v : String) (rest : List (String × String)),
      parseExifTimestamp v = none → scanTag tag ((tag, v) :: rest) = scanTag tag rest) ∧
    (get_video_creation_time none = none ∧ get_video_creation_time (some none) = none) ∧
    (∀ (metadata : SidecarJson) (media : FileInfo) (t : Int) (s : String),
      get_valid_timestamp metadata media = .ok (t, s) →
        s = "EXIF" ∨ s = "Video metadata" ∨ s = "JSON photoTakenTime" ∨
        s = "JSON creationTime" ∨ s = "File creation time" ∨
        s = "File modification time") ∧
    (∀ (metadata : SidecarJson) (media : FileInfo) (mt : Int),
      media.mtime = some mt →
        ∃ t s, get_valid_timestamp metadata media = .ok (t, s)) := by
  refine ⟨rfl, ?_, ⟨rfl, rfl⟩, ?_, ?_⟩
  · intro tag v rest h
    simp [scanTag, h]
  · intro metadata media t s h
    rw [gvt_eq_chain] at h
    rcases hm : mediaMetadataDate media with _ | ⟨d0, s0⟩
    · rcases hj : (get_json_date metadata).1 with _ | u
      · simp only [hm, hj] at h
        rcases fsDateFallback_label h with hl | hl
        · exact Or.inr (Or.inr (Or.inr (Or.inr (Or.inl hl))))
        · exact Or.inr (Or.inr (Or.inr (Or.inr (Or.inr hl))))
      · simp only [hm, hj, Except.ok.injEq, Prod.mk.injEq] at h
        rcases get_json_date_pairing hj with hp | hp
        · rw [hp] at h
          simp only [Option.getD_some] at h
          exact Or.inr (Or.inr (Or.inl h.2.symm))
        · rw [hp] at h
          simp only [Option.getD_some] at h
          exact Or.inr (Or.inr (Or.inr (Or.inl h.2.symm)))
    · simp only [hm, Except.ok.injEq, Prod.mk.injEq] at h
      rcases mediaMetadataDate_label hm with hl | hl
      · exact Or.inl (h.2.symm.trans hl)
      · exact Or.inr (Or.inl (h.2.symm.trans hl))
  · intro metadata media mt hmt
    rw [gvt_eq_chain]
    rcases hm : mediaMetadataDate media with _ | ⟨d0, s0⟩
    · rcases hj : (get_json_date metadata).1 with _ | u
      · obtain ⟨t, s, hfb⟩ := fsDateFallback_isOk hmt
        exact ⟨t, s, by simp [hm, hj, hfb]⟩
      · exact ⟨u, (get_json_date metadata).2.getD "", by simp [hm, hj]⟩
    · exact ⟨d0, s0, by simp [hm]⟩

/-- C8 witness: with `getmtime` succeeding, the resolver returns a pair
even when every other source yields nothing. -/
theorem claim_C8_wit :
    ∃ t s, get_valid_timestamp (SidecarJson.mk (some "n.bin") none none)
        (FileInfo.mk "d/n.bin" none none none (some 7)) = Except.ok (t, s) :=
  claim_C8.2.2.2.2 (SidecarJson.mk (some "n.bin") none none)
    (FileInfo.mk "d/n.bin" none none none (some 7)) 7 rfl

/-- C6: round-trip — a sidecar carrying `photoTakenTime.timestamp =
"1609459200"` paired with a photo yielding no embedded metadata resolves
from the JSON photoTakenTime field, and the planned destination lies under
`2021/2021-01-01/`. -/
theorem claim_C6 :
    get_valid_timestamp sidecarC6 mediaC6 = .ok (1609459200, "JSON photoTakenTime") ∧
    get_target_path 1609459200 "IMG_001.jpg" = ("2021/2021-01-01/IMG_001.jpg", ".jpg") ∧
    pyStartswith (get_target_path 1609459200 "IMG_001.jpg").1 "2021/2021-01-01/" = true := by
  refine ⟨by decide, by decide, by decide⟩

/-- Every `tier1Scan` hit is the sidecar stem plus a lower-cased supported
extension for which one of the two casings exists. -/
theorem tier1Scan_some {fsList : List String} {base : String} :
    ∀ {exts : List String} {p : String}, tier1Scan fsList base exts = some p →
      ∃ ext, ext ∈ exts ∧ p = base ++ lowerStr ext ∧
        (fsList.contains (base ++ lowerStr ext) = true ∨
         fsList.contains (base ++ upperStr ext) = true) := by
  intro exts
  induction exts with
  | nil => intro p h; simp [tier1Scan] at h
  | cons e rest ih =>
    intro p h
    unfold tier1Scan at h
    split at h
    · rename_i hcond
      cases h
      exact ⟨e, by simp, rfl, hcond⟩
    · obtain ⟨ext, hmem, hrest⟩ := ih h
      exact ⟨ext, by simp [hmem], hrest⟩

/-- If any tier-1 candidate exists in either casing, `tier1Scan` hits. -/
theorem tier1Scan_exists {fsList : List String} {base : String} :
    ∀ {exts : List String},
      (∃ ext ∈ exts, fsList.contains (base ++ lowerStr ext) = true ∨
        fsList.contains (base ++ upperStr ext) = true) →
      ∃ p, tier1Scan fsList base exts = some p := by
  intro exts
  induction exts with
  | nil => rintro ⟨ext, hmem, _⟩; simp at hmem
  | cons e rest ih =>
    rintro ⟨ext, hmem, hex⟩
    unfold tier1Scan
    by_cases hc : (fsList.contains (base ++ lowerStr e) = true ∨
        fsList.contains (base ++ upperStr e) = true)
    · rw [if_pos hc]
      exact ⟨_, rfl⟩
    · rw [if_neg hc]
      rcases List.mem_cons.mp hmem with heq | hmem

      · subst heq
        exact absurd hex hc
      · exact ih ⟨ext, hmem, hex⟩

/-- C3 counterexample: the claim that a tier-1 hit makes the matcher
return that (existing) file fails — with `album/photo.JPG` on disk the
matcher returns `album/photo.jpg`, which does not exist. -/
theorem claim_C3_cex :
    ¬ (∀ (fsList : List String) (json_path title p : String),
        (∃ ext ∈ ALL_MEDIA_EXTENSIONS,
          fsList.contains ((splitext json_path).1 ++ lowerStr ext) = true ∨
          fsList.contains ((splitext json_path).1 ++ upperStr ext) = true) →
        find_media_file fsList json_path title = .ok p →
        fsList.contains p = true) := by
  intro h
  have hc := h fsC3 "album/photo.json" "Vacation.png" "album/photo.jpg"
    ⟨".jpg", by decide, by decide⟩ (by decide)
  exact absurd hc (by decide)

/-- C3 (amended): the matcher tries its tiers strictly in order — whenever
a tier-1 candidate exists in either letter case, tier 1 wins and tiers 2
and 3 are never consulted, but the returned path is always the candidate
with the lower-cased extension (which, when only the upper-cased file
exists, names the nonexistent lower-cased variant); tier 2 fires only when
tier 1 found nothing, and tier 3 only when tiers 1 and 2 found nothing. -/
theorem claim_C3 (fsList : List String) (json_path title : String) :
    (∀ p, tier1Scan fsList (splitext json_path).1 ALL_MEDIA_EXTENSIONS = some p →
      find_media_file fsList json_path title = .ok p ∧
      ∃ ext, ext ∈ ALL_MEDIA_EXTENSIONS ∧ p = (splitext json_path).1 ++ lowerStr ext ∧
        (fsList.contains ((splitext json_path).1 ++ lowerStr ext) = true ∨
         fsList.contains ((splitext json_path).1 ++ upperStr ext) = true)) ∧
    ((∃ ext ∈ ALL_MEDIA_EXTENSIONS,
        fsList.contains ((splitext json_path).1 ++ lowerStr ext) = true ∨
        fsList.contains ((splitext json_path).1 ++ upperStr ext) = true) →
      ∃ p, tier1Scan fsList (splitext json_path).1 ALL_MEDIA_EXTENSIONS = some p) ∧
    (tier1Scan fsList (splitext json_path).1 ALL_MEDIA_EXTENSIONS = none →
      ∀ p, tier2Scan fsList (dirname json_path) (splitext title).1 ALL_MEDIA_EXTENSIONS
          = some p →
        find_media_file fsList json_path title = .ok p) ∧
    (tier1Scan fsList (splitext json_path).1 ALL_MEDIA_EXTENSIONS = none →
      tier2Scan fsList (dirname json_path) (splitext title).1 ALL_MEDIA_EXTENSIONS = none →
      ∀ p, tier3Scan fsList (dirname json_path) (splitext title).1 ALL_MEDIA_EXTENSIONS
          = some p →
        find_media_file fsList json_path title = .ok p) := by
  refine ⟨?_, fun h => tier1Scan_exists h, ?_, ?_⟩
  · intro p h
    constructor
    · unfold find_media_file
      simp only []
      rw [h]
    · exact tier1Scan_some h
  · intro h1 p h2
    unfold find_media_file
    simp only []
    rw [h1, h2]
  · intro h1 h2 p h3
    unfold find_media_file
    simp only []
    rw [h1, h2, h3]

/-- C3 witness: with the lower-cased exact-stem file on disk, tier 1
returns exactly that file. -/
theorem claim_C3_wit :
    find_media_file fsC3w "trip/pic.json" "whatever.png" = .ok "trip/pic.jpg" :=
  ((claim_C3 fsC3w "trip/pic.json" "whatever.png").1 "trip/pic.jpg" (by decide)).1

/-- A failing `.json` file costs exactly one error and nothing else. -/
theorem pass1Step_error {env : Env} {target_dir root file : String} {acc : Acc}
    {e : ProcError} (h : process_json_file env (joinPath root file) = .error e) :
    pass1Step env target_dir root file acc =
      { acc with stats := { acc.stats with errors := acc.stats.errors + 1 } } := by
  unfold pass1Step
  simp only []
  rw [h]

/-- C7: when every matcher tier fails, `find_media_file` fails with the
media-not-found error carrying the sidecar path and the title; the driver
maps it into `process_json_file`'s error, and a failing sidecar increments
only the error counter while the fold simply continues with the remaining
files. -/
theorem claim_C7 (fsList : List String) (json_path title : String) (env : Env)
    (target_dir root file : String) (acc : Acc) :
    (tier1Scan fsList (splitext json_path).1 ALL_MEDIA_EXTENSIONS = none →
      tier2Scan fsList (dirname json_path) (splitext title).1 ALL_MEDIA_EXTENSIONS = none →
      tier3Scan fsList (dirname json_path) (splitext title).1 ALL_MEDIA_EXTENSIONS = none →
      find_media_file fsList json_path title = .error (.mediaNotFound json_path title)) ∧
    (∀ md, env.content json_path = some md → md.title = some title →
      find_media_file env.fsList json_path title = .error (.mediaNotFound json_path title) →
      process_json_file env json_path = .error (.mediaNotFound json_path title)) ∧
    (∀ e, process_json_file env (joinPath root file) = .error e →
      pass1Step env target_dir root file acc =
        { acc with stats := { acc.stats with errors := acc.stats.errors + 1 } }) ∧
    (∀ e rest, process_json_file env (joinPath root file) = .error e →
      pyEndswith file ".json" = true →
      pass1Files env target_dir root acc (file :: rest) =
        pass1Files env target_dir root
          { acc with stats := { acc.stats with errors := acc.stats.errors + 1 } } rest) := by
  refine ⟨?_, ?_, fun e h => pass1Step_error h, ?_⟩
  · intro h1 h2 h3
    unfold find_media_file
    simp only []
    rw [h1, h2, h3]
  · intro md hmd htitle hfind
    unfold process_json_file
    simp only [hmd, htitle, hfind]
  · intro e rest h hend
    unfold pass1Files
    simp only [List.foldl_cons]
    rw [hend]
    simp only [if_true]
    rw [pass1Step_error h]

/-- C7 witness: a sidecar whose media file is missing costs one error and
leaves the rest of the accumulator untouched. -/
theorem claim_C7_wit :
    pass1Step envC7 "tgt" "root" "a.json" ⟨initStats, [], []⟩ =
      ⟨{ initStats with errors := 1 }, [], []⟩ :=
  (claim_C7 [] "x" "y" envC7 "tgt" "root" "a.json" ⟨initStats, [], []⟩).2.2.1
    (.mediaNotFound "root/a.json" "nope.jpg") (by decide)

/-- C9: any directory equal to the target directory, or beneath it, in the
normalised case-insensitive comparison, fails the should-process check, so
both passes leave the accumulator untouched there (pass 1 counts the skip,
pass 2 skips silently) — no file inside the target tree is ever processed,
in either pass of any run. -/
theorem claim_C9 (path target_dir : String)
    (h : lowerStr (normpath path) = lowerStr (normpath target_dir) ∨
         ∃ s, lowerStr (normpath path) = lowerStr (normpath target_dir) ++ "/" ++ s) :
    should_process_directory path target_dir = false ∧
    (∀ (env : Env) (acc : Acc) (files : List String),
      pass1Dir env target_dir acc (path, files) =
        { acc with stats := { acc.stats with
            skipped_directories := acc.stats.skipped_directories + 1 } } ∧
      pass2Dir env target_dir acc (path, files) = acc) := by
  have hpre : pyStartswith (lowerStr (normpath path)) (lowerStr (normpath target_dir)) = true := by
    unfold pyStartswith
    rcases h with h | ⟨s, h⟩
    · rw [h]
      exact List.isPrefixOf_iff_prefix.mpr List.prefix_rfl
    · rw [h]
      simp only [String.data_append]
      rw [List.append_assoc]
      exact List.isPrefixOf_iff_prefix.mpr (List.prefix_append _ _)
  have hsp : should_process_directory path target_dir = false := by
    unfold should_process_directory
    simp only []
    rw [hpre]
    rfl
  refine ⟨hsp, fun env acc files => ⟨?_, ?_⟩⟩
  · unfold pass1Dir
    simp [hsp]
  · unfold pass2Dir
    simp [hsp]

/-- C9 witness: a (case-mangled) subdirectory of the target is excluded. -/
theorem claim_C9_wit :
    should_process_directory "/data/Organized/2021" "/data/organized" = false :=
  (claim_C9 "/data/Organized/2021" "/data/organized" (Or.inr ⟨"2021", by decide⟩)).1

/-- A successful pass-1 file advances `processed`, `processed_with_json`
and exactly one of `photos`/`videos`; `countMedia` keeps the invariant. -/
theorem pass1Step_statsInv {env : Env} {target_dir root file : String} {acc : Acc}
    (hinv : statsInv acc.stats) :
    statsInv (pass1Step env target_dir root file acc).stats := by
  unfold pass1Step
  simp only []
  split
  · simpa [statsInv] using hinv
  · split
    · split
      · unfold countMedia statsInv
        obtain ⟨h1, h2⟩ := hinv
        split <;> constructor <;> (simp only []; omega)
      · simpa [statsInv] using hinv
    · simpa [statsInv] using hinv

/-- A pass-2 file keeps the statistics invariant. -/
theorem pass2Step_statsInv {env : Env} {target_dir root file : String} {acc : Acc}
    (hinv : statsInv acc.stats) :
    statsInv (pass2Step env target_dir root file acc).stats := by
  unfold pass2Step
  simp only []
  split
  · exact hinv
  · split
    · split
      · simpa [statsInv] using hinv
      · split
        · unfold countMedia statsInv
          obtain ⟨h1, h2⟩ := hinv
          split <;> constructor <;> (simp only []; omega)
        · simpa [statsInv] using hinv
    · exact hinv

/-- Folding a statistics-invariant-preserving step preserves the invariant. -/
theorem foldl_statsInv {α : Type} {f : Acc → α → Acc}
    (hf : ∀ acc a, statsInv acc.stats → statsInv (f acc a).stats) :
    ∀ (l : List α) (acc : Acc), statsInv acc.stats → statsInv (l.foldl f acc).stats := by
  intro l
  induction l with
  | nil => intro acc h; exact h
  | cons x xs ih =>
    intro acc h
    exact ih _ (hf acc x h)

/-- Each pass-1 walk entry keeps the statistics invariant. -/
theorem pass1Dir_statsInv {env : Env} {target_dir : String} {acc : Acc}
    {entry : String × List String} (hinv : statsInv acc.stats) :
    statsInv (pass1Dir env target_dir acc entry).stats := by
  unfold pass1Dir
  split
  · unfold pass1Files
    refine foldl_statsInv ?_ entry.2 acc hinv
    intro a x h
    split
    · exact pass1Step_statsInv h
    · exact h
  · simpa [statsInv] using hinv

/-- Each pass-2 walk entry keeps the statistics invariant. -/
theorem pass2Dir_statsInv {env : Env} {target_dir : String} {acc : Acc}
    {entry : String × List String} (hinv : statsInv acc.stats) :
    statsInv (pass2Dir env target_dir acc entry).stats := by
  unfold pass2Dir
  split
  · refine foldl_statsInv ?_ entry.2 acc hinv
    intro a x h
    exact pass2Step_statsInv h
  · exact hinv

/-- `countMedia` never touches the error counter. -/
theorem countMedia_errors (st : Stats) (ext : String) :
    (countMedia st ext).errors = st.errors := by
  unfold countMedia
  split <;> rfl

/-- A pass-1 file either fails (only `errors` advances) or succeeds
(leaving `errors` unchanged). -/
theorem pass1Step_stats_cases (env : Env) (td root file : String) (acc : Acc) :
    (pass1Step env td root file acc).stats =
      { acc.stats with errors := acc.stats.errors + 1 } ∨
    (pass1Step env td root file acc).stats.errors = acc.stats.errors := by
  unfold pass1Step
  simp only []
  split
  · left; rfl
  · split
    · split
      · right; exact countMedia_errors _ _
      · left; rfl
    · left; rfl

/-- A pass-2 file is skipped, fails (only `errors` advances) or succeeds
(leaving `errors` unchanged). -/
theorem pass2Step_stats_cases (env : Env) (td root file : String) (acc : Acc) :
    (pass2Step env td root file acc).stats =
      { acc.stats with errors := acc.stats.errors + 1 } ∨
    (pass2Step env td root file acc).stats.errors = acc.stats.errors := by
  unfold pass2Step
  simp only []
  split
  · right; rfl
  · split
    · split
      · left; rfl
      · split
        · right; exact countMedia_errors _ _
        · left; rfl
    · right; rfl

/-- C10: the statistics invariant — `processed` equals both
`processed_with_json + processed_without_json` and `photos + videos` —
holds initially and is kept by every per-file step of both passes; a
failing file changes the statistics only by `errors += 1`; the invariant
therefore holds after any complete run. -/
theorem claim_C10 :
    statsInv initStats ∧
    (∀ (env : Env) (target_dir root file : String) (acc : Acc),
      statsInv acc.stats →
        statsInv (pass1Step env target_dir root file acc).stats ∧
        statsInv (pass2Step env target_dir root file acc).stats) ∧
    (∀ (env : Env) (target_dir root file : String) (acc : Acc),
      (pass1Step env target_dir root file acc).stats.errors ≠ acc.stats.errors →
        (pass1Step env target_dir root file acc).stats =
          { acc.stats with errors := acc.stats.errors + 1 }) ∧
    (∀ (env : Env) (target_dir root file : String) (acc : Acc),
      (pass2Step env target_dir root file acc).stats.errors ≠ acc.stats.errors →
        (pass2Step env target_dir root file acc).stats =
          { acc.stats with errors := acc.stats.errors + 1 }) ∧
    (∀ (env : Env) (target_dir : String) (walk1 walk2 : List (String × List String)),
      statsInv (organize_media env target_dir walk1 walk2).stats) := by
  refine ⟨⟨rfl, rfl⟩,
    fun env td root file acc h => ⟨pass1Step_statsInv h, pass2Step_statsInv h⟩,
    ?_, ?_, ?_⟩
  · intro env td root file acc hne
    exact (pass1Step_stats_cases env td root file acc).resolve_right hne
  · intro env td root file acc hne
    exact (pass2Step_stats_cases env td root file acc).resolve_right hne
  · intro env td walk1 walk2
    unfold organize_media
    simp only []
    refine foldl_statsInv (fun acc a h => pass2Dir_statsInv h) walk2 _
      (foldl_statsInv (fun acc a h => pass1Dir_statsInv h) walk1 _ ⟨rfl, rfl⟩)

/-- C10 witness: one failing sidecar leaves the invariant intact and
advances only the error counter. -/
theorem claim_C10_wit :
    statsInv (pass1Step envC7 "tgt" "root" "a.json" ⟨initStats, [], []⟩).stats :=
  (claim_C10.2.1 envC7 "tgt" "root" "a.json" ⟨initStats, [], []⟩ ⟨rfl, rfl⟩).1

/-! ## Calendar bounds (towards the path-pattern claim) -/

/-- A year has 365 or 366 days. -/
theorem daysInYear_eq (y : Int) : daysInYear y = 365 ∨ daysInYear y = 366 := by
  unfold daysInYear
  split
  · right; rfl
  · left; rfl

/-- With enough fuel, the year scan lands on a year at or after its start
with a nonnegative day remainder below that year's length. -/
theorem yearFromDays_bounds :
    ∀ (fuel : Nat) (y d : Int), 0 ≤ d → d.toNat ≤ fuel →
      y ≤ (yearFromDays fuel y d).1 ∧ 0 ≤ (yearFromDays fuel y d).2 ∧
      (yearFromDays fuel y d).2 < daysInYear (yearFromDays fuel y d).1 := by
  intro fuel
  induction fuel with
  | zero =>
    intro y d h0 hf
    have hd : d = 0 := by omega
    subst hd
    have h365 : daysInYear y = 365 ∨ daysInYear y = 366 := daysInYear_eq y
    unfold yearFromDays
    refine ⟨le_refl y, le_refl 0, ?_⟩
    simp only []
    omega
  | succ fuel ih =>
    intro y d h0 hf
    have h365 : daysInYear y = 365 ∨ daysInYear y = 366 := daysInYear_eq y
    unfold yearFromDays
    split
    · rename_i hcond
      have hrec := ih (y + 1) (d - daysInYear y) (by omega) (by omega)
      exact ⟨by omega, hrec.2.1, hrec.2.2⟩
    · rename_i hcond
      refine ⟨le_refl y, h0, ?_⟩
      simp only []
      omega

/-- The month scan lands on a month within the scanned window with a
day-of-month between 1 and 31. -/
theorem monthFromDoy_bounds :
    ∀ (lens : List Int) (m d : Int), 0 ≤ d → d < lens.sum →
      (∀ len ∈ lens, 1 ≤ len ∧ len ≤ 31) →
      m ≤ (monthFromDoy lens m d).1 ∧
      (monthFromDoy lens m d).1 ≤ m + lens.length - 1 ∧
      1 ≤ (monthFromDoy lens m d).2 ∧ (monthFromDoy lens m d).2 ≤ 31 := by
  intro lens
  induction lens with
  | nil =>
    intro m d h0 hs hmem
    simp at hs
    omega
  | cons len rest ih =>
    intro m d h0 hs hmem
    have hlen := hmem len (by simp)
    rw [List.sum_cons] at hs
    unfold monthFromDoy
    split
    · rename_i hcond
      refine ⟨le_refl m, ?_, by omega, by omega⟩
      simp only [List.length_cons]
      push_cast
      omega
    · rename_i hcond
      have hrec := ih (m + 1) (d - len) (by omega) (by omega)
        (fun l hl => hmem l (by simp [hl]))
      obtain ⟨ha, hb, hc, hd⟩ := hrec
      refine ⟨by omega, ?_, hc, hd⟩
      simp only [List.length_cons] at hb ⊢
      push_cast at hb ⊢
      omega

/-- The month table sums to the year length. -/
theorem daysInMonthList_sum (y : Int) :
    (daysInMonthList (isLeap y)).sum = daysInYear y := by
  unfold daysInYear
  cases h : isLeap y <;> simp [daysInMonthList]

/-- Every month length lies between 1 and 31. -/
theorem daysInMonthList_mem (b : Bool) :
    ∀ len ∈ daysInMonthList b, 1 ≤ len ∧ len ≤ 31 := by
  cases b <;> decide

/-- Twelve months. -/
theorem daysInMonthList_length (b : Bool) : (daysInMonthList b).length = 12 := by
  cases b <;> rfl

/-- Bounds of the computed calendar date for a nonnegative timestamp. -/
theorem localDate_bounds {t y m d : Int} (ht : 0 ≤ t)
    (heq : localDate t = (y, m, d)) :
    1970 ≤ y ∧ 1 ≤ m ∧ m ≤ 12 ∧ 1 ≤ d ∧ d ≤ 31 := by
  unfold localDate at heq
  simp only [] at heq
  have hdays : 0 ≤ t / 86400 := Int.ediv_nonneg ht (by norm_num)
  have hyb := yearFromDays_bounds ((t / 86400).toNat + 1) 1970 (t / 86400) hdays (by omega)
  have hsum : (yearFromDays ((t / 86400).toNat + 1) 1970 (t / 86400)).2 <
      (daysInMonthList
        (isLeap (yearFromDays ((t / 86400).toNat + 1) 1970 (t / 86400)).1)).sum := by
    rw [daysInMonthList_sum]
    exact hyb.2.2
  have hmb := monthFromDoy_bounds _ 1 _ hyb.2.1 hsum (daysInMonthList_mem _)
  rw [daysInMonthList_length] at hmb
  injection heq with h1 h23
  injection h23 with h2 h3
  subst h1
  subst h2
  subst h3
  refine ⟨hyb.1, hmb.1, ?_, hmb.2.2.1, hmb.2.2.2⟩
  have h12 := hmb.2.1
  push_cast at h12
  omega

/-! ## Decimal-rendering lemmas (towards the path-pattern claim) -/

/-- `Nat.digitChar` of a value below ten is a digit character. -/
theorem digitChar_isDigit {n : Nat} (h : n < 10) : (Nat.digitChar n).isDigit = true := by
  interval_cases n <;> decide

/-- `Nat.toDigitsCore` only prepends to its accumulator. -/
theorem toDigitsCore_append (fuel : Nat) :
    ∀ (n : Nat) (acc : List Char), ∃ l, Nat.toDigitsCore 10 fuel n acc = l ++ acc := by
  induction fuel with
  | zero => exact fun n acc => ⟨[], rfl⟩
  | succ fuel ih =>
    intro n acc
    unfold Nat.toDigitsCore
    simp only []
    split
    · exact ⟨[Nat.digitChar (n % 10)], rfl⟩
    · obtain ⟨l, hl⟩ := ih (n / 10) (Nat.digitChar (n % 10) :: acc)
      exact ⟨l ++ [Nat.digitChar (n % 10)], by rw [hl]; simp⟩

/-- Everything `Nat.toDigitsCore` emits over a digit accumulator is a digit. -/
theorem toDigitsCore_digits (fuel : Nat) :
    ∀ (n : Nat) (acc : List Char), (∀ c ∈ acc, c.isDigit = true) →
      ∀ c ∈ Nat.toDigitsCore 10 fuel n acc, c.isDigit = true := by
  induction fuel with
  | zero => exact fun n acc hacc c hc => hacc c hc
  | succ fuel ih =>
    intro n acc hacc c hc
    unfold Nat.toDigitsCore at hc
    simp only [] at hc
    have hcons : ∀ c2 ∈ Nat.digitChar (n % 10) :: acc, c2.isDigit = true := by
      intro c2 hc2
      rcases List.mem_cons.mp hc2 with h | h
      · subst h
        exact digitChar_isDigit (Nat.mod_lt _ (by decide))
      · exact hacc c2 h
    split at hc
    · exact hcons c hc
    · exact ih (n / 10) (Nat.digitChar (n % 10) :: acc) hcons c hc

/-- With positive fuel, `Nat.toDigitsCore` emits at least one character. -/
theorem toDigitsCore_ne_nil {fuel : Nat} (n : Nat) (acc : List Char) (h : 0 < fuel) :
    Nat.toDigitsCore 10 fuel n acc ≠ [] := by
  cases fuel with
  | zero => omega
  | succ fuel =>
    unfold Nat.toDigitsCore
    simp only []
    split
    · simp
    · obtain ⟨l, hl⟩ := toDigitsCore_append fuel (n / 10) (Nat.digitChar (n % 10) :: acc)
      rw [hl]
      simp

/-- `Nat.repr` is a nonempty all-digit string. -/
theorem natRepr_spec (n : Nat) :
    (Nat.repr n).data ≠ [] ∧ ∀ c ∈ (Nat.repr n).data, c.isDigit = true := by
  constructor
  · exact toDigitsCore_ne_nil n [] (by omega)
  · exact toDigitsCore_digits (n + 1) n [] (by intro x hx; cases hx)

/-- `toString` of a nonnegative integer is `Nat.repr` of its value. -/
theorem int_toString_nonneg {y : Int} (h : 0 ≤ y) : toString y = Nat.repr y.toNat := by
  obtain ⟨n, rfl⟩ := Int.eq_ofNat_of_zero_le h
  rfl

/-- A nonempty all-digit character list neither starts nor ends with `/`. -/
theorem digit_list_facts {l : List Char} (hne : l ≠ [])
    (hdig : ∀ c ∈ l, c.isDigit = true) :
    l.head? ≠ some '/' ∧ l.getLast? ≠ some '/' := by
  constructor
  · intro hh
    cases l with
    | nil => exact hne rfl
    | cons a rest =>
      simp only [List.head?_cons, Option.some.injEq] at hh
      subst hh
      have := hdig '/' (by simp)
      simp [Char.isDigit] at this
  · intro hh
    have hmem := List.mem_of_getLast?_eq_some hh
    have := hdig '/' hmem
    simp [Char.isDigit] at this

/-- The string rendering of a nonnegative integer: nonempty, slash-free at
both ends. -/
theorem yearString_facts {y : Int} (h : 0 ≤ y) :
    toString y ≠ "" ∧ (toString y).data ≠ [] ∧
    (toString y).data.head? ≠ some '/' ∧ (toString y).data.getLast? ≠ some '/' := by
  rw [int_toString_nonneg h]
  obtain ⟨hne, hdig⟩ := natRepr_spec y.toNat
  obtain ⟨hh, hl⟩ := digit_list_facts hne hdig
  refine ⟨?_, hne, hh, hl⟩
  intro he
  apply hne
  rw [he]

/-- The month/day rendering facts: `str(k).zfill(2)` is a two-character
string with slash-free ends for every day-scale value. -/
theorem zfill_two_facts (k : Int) (h1 : 1 ≤ k) (h2 : k ≤ 31) :
    (zfill 2 (toString k)).length = 2 ∧
    (zfill 2 (toString k)).data ≠ [] ∧
    (zfill 2 (toString k)).data.head? ≠ some '/' ∧
    (zfill 2 (toString k)).data.getLast? ≠ some '/' := by
  interval_cases k <;> exact ⟨by decide, by decide, by decide, by decide⟩

/-- `joinPath` concatenates with a separator in the regular case. -/
theorem joinPath_eq {a b : String} (hb : b.data.head? ≠ some '/') (ha : a ≠ "")
    (ha2 : a.data.getLast? ≠ some '/') : joinPath a b = a ++ "/" ++ b := by
  unfold joinPath
  rw [if_neg hb, if_neg ha, if_neg ha2]

/-- Every character of the root part of `splitext` comes from the input. -/
theorem splitext_fst_subset (p : String) : ∀ c ∈ (splitext p).1.data, c ∈ p.data := by
  unfold splitext
  simp only []
  split
  · exact fun c hc => hc
  · split
    · intro c hc
      simp only [] at hc
      rcases List.mem_append.mp hc with h | h
      · exact List.take_subset _ _ h
      · have h2 := List.take_subset _ _ h
        have h3 := List.mem_reverse.mp h2
        have h4 := (List.takeWhile_sublist _).subset h3
        exact List.mem_reverse.mp h4
    · exact fun c hc => hc

/-- The extension part of `splitext` is empty or starts with a dot. -/
theorem splitext_snd_shape (p : String) :
    (splitext p).2 = "" ∨ ∃ l, (splitext p).2.data = '.' :: l := by
  unfold splitext
  simp only []
  split
  · left; rfl
  · split
    · right
      exact ⟨_, rfl⟩
    · left; rfl

/-- No character of a basename is a slash. -/
theorem basename_no_slash (p : String) : ∀ c ∈ (basename p).data, c ≠ '/' := by
  intro c hc
  unfold basename at hc
  simp only [] at hc
  have h1 := List.mem_reverse.mp hc
  have h2 := List.mem_takeWhile_imp h1
  simpa using h2

/-- Length of the digit emission: one character per decimal digit. -/
theorem toDigitsCore_length :
    ∀ (fuel n : Nat) (acc : List Char), n < 10 ^ (fuel + 1) →
      (Nat.toDigitsCore 10 (fuel + 1) n acc).length = Nat.log 10 n + 1 + acc.length := by
  intro fuel
  induction fuel with
  | zero =>
    intro n acc h
    rw [pow_one] at h
    unfold Nat.toDigitsCore
    simp only []
    rw [if_pos (by omega)]
    have hlog : Nat.log 10 n = 0 := Nat.log_eq_zero_iff.mpr (Or.inl h)
    simp [hlog]
    omega
  | succ fuel ih =>
    intro n acc h
    unfold Nat.toDigitsCore
    simp only []
    by_cases hdiv : n / 10 = 0
    · rw [if_pos hdiv]
      have hlt : n < 10 := by omega
      have hlog : Nat.log 10 n = 0 := Nat.log_eq_zero_iff.mpr (Or.inl hlt)
      simp [hlog]
      omega
    · rw [if_neg hdiv]
      have hbound : n / 10 < 10 ^ (fuel + 1) := by
        rw [pow_succ] at h
        omega
      rw [ih (n / 10) (Nat.digitChar (n % 10) :: acc) hbound]
      have hlog : Nat.log 10 (n / 10) = Nat.log 10 n - 1 := Nat.log_div_base 10 n
      have hpos : 0 < Nat.log 10 n := Nat.log_pos (by norm_num) (by omega)
      simp only [List.length_cons]
      omega

/-- The decimal rendering of a four-digit number has four characters. -/
theorem natRepr_length_four {y : Int} (h1 : 1000 ≤ y) (h2 : y ≤ 9999) :
    (toString y).length = 4 := by
  rw [int_toString_nonneg (by omega)]
  show (Nat.toDigitsCore 10 (y.toNat + 1) y.toNat []).length = 4
  obtain ⟨fuel, hfuel⟩ : ∃ fuel, y.toNat + 1 = fuel + 1 := ⟨y.toNat, rfl⟩
  rw [hfuel]
  have hb : y.toNat < 10 ^ (fuel + 1) := by
    calc y.toNat < 2 ^ y.toNat := Nat.lt_two_pow y.toNat
    _ ≤ 10 ^ y.toNat := Nat.pow_le_pow_left (by norm_num) _
    _ ≤ 10 ^ (fuel + 1) := Nat.pow_le_pow_right (by norm_num) (by omega)
  rw [toDigitsCore_length fuel y.toNat [] hb]
  have hge : 1000 ≤ y.toNat := by omega
  have hlt : y.toNat < 10000 := by omega
  have hlog : Nat.log 10 y.toNat = 3 :=
    Nat.log_eq_of_pow_le_of_lt_pow (by norm_num [hge]) (by norm_num [hlt])
  simp [hlog]

/-- A string with a nonempty character list is not the empty string. -/
theorem str_ne_empty {s : String} (h : s.data ≠ []) : s ≠ "" :=
  fun he => h (by rw [he])

/-- C4: the path planner is a pure function of `(timestamp, filename)` —
the equation below determines its output completely, so equal inputs give
equal outputs — and for every nonnegative timestamp whose computed year
fits in four digits the destination is exactly
`YYYY/YYYY-MM-DD/basename.ext`: the year rendered with four characters,
month and day zero-padded to two, the original base name kept and the
extension lower-cased. -/
theorem claim_C4 (t : Int) (media_path : String) (ht : 0 ≤ t)
    (hy : (localDate t).1 ≤ 9999) :
    ∃ y m d : Int,
      localDate t = (y, m, d) ∧
      1970 ≤ y ∧ y ≤ 9999 ∧ 1 ≤ m ∧ m ≤ 12 ∧ 1 ≤ d ∧ d ≤ 31 ∧
      (toString y).length = 4 ∧
      (zfill 2 (toString m)).length = 2 ∧
      (zfill 2 (toString d)).length = 2 ∧
      get_target_path t media_path =
        (toString y ++ "/" ++ (toString y ++ "-" ++ zfill 2 (toString m) ++ "-" ++
            zfill 2 (toString d)) ++ "/" ++
          ((splitext (basename media_path)).1 ++ lowerStr (splitext media_path).2),
         lowerStr (splitext media_path).2) := by
  rcases hld : localDate t with ⟨y, m, d⟩
  obtain ⟨hy1, hm1, hm2, hd1, hd2⟩ := localDate_bounds ht hld
  have hy2 : y ≤ 9999 := by rw [hld] at hy; exact hy
  obtain ⟨yne, ydne, yhead, ylast⟩ := yearString_facts (show (0 : Int) ≤ y by omega)
  obtain ⟨mlen, mne, mhead, mlast⟩ := zfill_two_facts m hm1 (by omega)
  obtain ⟨dlen, dne, dhead, dlast⟩ := zfill_two_facts d hd1 hd2
  refine ⟨y, m, d, rfl, hy1, hy2, hm1, hm2, hd1, hd2,
    natRepr_length_four (by omega) hy2, mlen, dlen, ?_⟩
  have hfname_head :
      ((splitext (basename media_path)).1 ++ lowerStr (splitext media_path).2).data.head?
        ≠ some '/' := by
    rw [String.data_append]
    cases hstem : (splitext (basename media_path)).1.data with
    | nil =>
      simp only [List.nil_append]
      rcases splitext_snd_shape media_path with hext | ⟨l, hext⟩
      · rw [hext]
        simp [lowerStr]
      · show (lowerStr (splitext media_path).2).data.head? ≠ some '/'
        unfold lowerStr
        rw [hext]
        simp only [List.map_cons, List.head?_cons, Option.some.injEq]
        decide
    | cons c rest =>
      have hc : c ∈ (splitext (basename media_path)).1.data := by rw [hstem]; simp
      have hc3 := basename_no_slash media_path c (splitext_fst_subset (basename media_path) c hc)
      simp only [List.cons_append, List.head?_cons, Option.some.injEq]
      simpa using hc3
  have hymd_data :
      (toString y ++ "-" ++ zfill 2 (toString m) ++ "-" ++ zfill 2 (toString d)).data ≠ [] := by
    simp only [String.data_append]
    intro hcontr
    rw [List.append_eq_nil] at hcontr
    exact dne hcontr.2
  have hymd_ne := str_ne_empty hymd_data
  have hymd_last :
      (toString y ++ "-" ++ zfill 2 (toString m) ++ "-" ++
        zfill 2 (toString d)).data.getLast? ≠ some '/' := by
    simp only [String.data_append, List.getLast?_append]
    cases hdl : (zfill 2 (toString d)).data.getLast? with
    | none => exact absurd (List.getLast?_eq_none_iff.mp hdl) dne
    | some c =>
      simp only [Option.or_some]
      intro hcc
      exact dlast (hdl.trans hcc)
  have houter_head :
      ((toString y ++ "-" ++ zfill 2 (toString m) ++ "-" ++ zfill 2 (toString d)) ++ "/" ++
        ((splitext (basename media_path)).1 ++ lowerStr (splitext media_path).2)).data.head?
        ≠ some '/' := by
    cases hyd : (toString y).data with
    | nil => exact absurd hyd ydne
    | cons c rest =>
      rw [hyd] at yhead
      simp only [String.data_append, List.head?_append, hyd, List.head?_cons, Option.or_some]
      simpa using yhead
  unfold get_target_path
  simp only [hld]
  rw [joinPath_eq hfname_head hymd_ne hymd_last]
  rw [joinPath_eq houter_head yne ylast]
  simp only [Prod.mk.injEq]
  refine ⟨?_, trivial⟩
  apply String.ext
  simp only [String.data_append, List.append_assoc]

/-- C4 witness: the concrete plan for timestamp 1700000000 and
`a/IMG_7.ARW`. -/
theorem claim_C4_wit :
    ∃ y m d : Int,
      localDate 1700000000 = (y, m, d) ∧
      1970 ≤ y ∧ y ≤ 9999 ∧ 1 ≤ m ∧ m ≤ 12 ∧ 1 ≤ d ∧ d ≤ 31 ∧
      (toString y).length = 4 ∧
      (zfill 2 (toString m)).length = 2 ∧
      (zfill 2 (toString d)).length = 2 ∧
      get_target_path 1700000000 "a/IMG_7.ARW" =
        (toString y ++ "/" ++ (toString y ++ "-" ++ zfill 2 (toString m) ++ "-" ++
            zfill 2 (toString d)) ++ "/" ++
          ((splitext (basename "a/IMG_7.ARW")).1 ++ lowerStr (splitext "a/IMG_7.ARW").2),
         lowerStr (splitext "a/IMG_7.ARW").2) :=
  claim_C4 1700000000 "a/IMG_7.ARW" (by decide) (by decide)

end OrganizePhotos
